import Mathlib

/-!
Verification of the Classifier Session logic of `image_classifier.py`.

The program keeps four pieces of session state: the sorted list of image
filenames of the working directory, an integer cursor into it, the list of
destination folder names (sorted by creation time), and an undo stack of
`(path-after-move, path-before-move)` pairs.  The filesystem is modelled as
the set of files directly in the working directory plus the sub-folders with
their contained files and their timestamps; `shutil.move` is modelled as an
`Option`-valued operation that succeeds exactly when the source exists and the
destination's parent directory exists (any real-world failure is the `none`
case).  Python's negative-index semantics for list subscripts are modelled
explicitly, since `move_image_to_folder` guards only `folder_index >= len`.
-/

/-- Python string comparison (used by `list.sort()` on filenames):
lexicographic by code point. -/
def charListLe : List Char → List Char → Bool
  | [], _ => true
  | _ :: _, [] => false
  | a :: as, b :: bs =>
      if a.toNat < b.toNat then true
      else if b.toNat < a.toNat then false
      else charListLe as bs

/-- The ordering `list.sort()` uses on strings. -/
def strLe (a b : String) : Prop := charListLe a.data b.data = true

instance : DecidableRel strLe := fun a b =>
  decidable_of_iff (charListLe a.data b.data = true) Iff.rfl

/-- `s.lower()` on the character sequence (ASCII case folding, which is all
the allow-list comparison can observe). -/
def lowerData (s : String) : List Char := s.data.map Char.toLower

/-- `f.lower().endswith(('.png', '.jpg', '.jpeg', '.gif', '.bmp'))`
from `load_images`. -/
def isImageFile (f : String) : Bool :=
  (".png".data).isSuffixOf (lowerData f) || (".jpg".data).isSuffixOf (lowerData f) ||
  (".jpeg".data).isSuffixOf (lowerData f) || (".gif".data).isSuffixOf (lowerData f) ||
  (".bmp".data).isSuffixOf (lowerData f)

/-- `f.startswith('.')` from `load_folders`. -/
def isHidden (s : String) : Bool := s.data.take 1 == ['.']

/-- A path in the modelled filesystem: either a file directly in the working
directory, or a file inside one of its sub-folders. -/
inductive FPath where
  | root (file : String)
  | sub (folder : String) (file : String)
deriving DecidableEq

/-- A sub-folder of the working directory: its name, its creation time when
the host filesystem provides one (`st_birthtime`), its metadata-change time
(`st_ctime`), and the files it contains. -/
structure Folder where
  name : String
  birthtime : Option Nat
  ctime : Nat
  files : List String
deriving DecidableEq

/-- The modelled working directory: the files directly in it and its
sub-folders. -/
structure FS where
  rootFiles : List String
  folders : List Folder
deriving DecidableEq

/-- `os.listdir(work_dir)`: every direct entry of the working directory,
files and sub-directories alike. -/
def listdir (fs : FS) : List String :=
  fs.rootFiles ++ fs.folders.map (·.name)

/-- Whether a file exists at the given path. -/
def fsExists (fs : FS) : FPath → Bool
  | .root f => fs.rootFiles.contains f
  | .sub d f => fs.folders.any (fun dir => dir.name == d && dir.files.contains f)

/-- Whether the parent directory of the given path exists. -/
def parentExists (fs : FS) : FPath → Bool
  | .root _ => true
  | .sub d _ => fs.folders.any (fun dir => dir.name == d)

/-- Add a filename to a directory listing (no duplicate entries: moving onto
an existing file overwrites it). -/
def addFile (l : List String) (f : String) : List String :=
  if l.contains f then l else f :: l

/-- Place a file at a path. -/
def fsAdd (fs : FS) : FPath → FS
  | .root f => { fs with rootFiles := addFile fs.rootFiles f }
  | .sub d f =>
      { fs with folders := fs.folders.map (fun dir =>
          if dir.name == d then { dir with files := addFile dir.files f } else dir) }

/-- Delete the file at a path. -/
def fsRemove (fs : FS) : FPath → FS
  | .root f => { fs with rootFiles := fs.rootFiles.erase f }
  | .sub d f =>
      { fs with folders := fs.folders.map (fun dir =>
          if dir.name == d then { dir with files := dir.files.erase f } else dir) }

/-- Model of `shutil.move src dst`: succeeds iff the source file exists and
the destination's parent directory exists; every filesystem-level failure is
the `none` result. -/
def fsMove (fs : FS) (src dst : FPath) : Option FS :=
  if fsExists fs src && parentExists fs dst then some (fsAdd (fsRemove fs src) dst)
  else none

/-- `os.path.basename` of a modelled path. -/
def basename : FPath → String
  | .root f => f
  | .sub _ f => f

/-- Python list subscript `l[i]`: non-negative indices count from the front,
negative indices from the back, and `none` is an `IndexError`. -/
def pyGet {α : Type} (l : List α) (i : Int) : Option α :=
  if 0 ≤ i then l.get? i.toNat
  else if 0 ≤ i + l.length then l.get? (i + l.length).toNat
  else none

/-- Python `del l[i]` for an in-range index (out-of-range indices never reach
the deletion in the modelled code paths). -/
def pyDelete {α : Type} (l : List α) (i : Int) : List α :=
  if 0 ≤ i then l.eraseIdx i.toNat
  else l.eraseIdx (i + l.length).toNat

/-- The mutable state of `ImageClassifier`: `image_files`, `current_index`,
`folders`, `undo_stack`. -/
structure Session where
  image_files : List String
  current_index : Int
  folders : List String
  undo_stack : List (FPath × FPath)
deriving DecidableEq

/-- The image list recomputed by `load_images`: filter `os.listdir` by the
extension allow-list, then sort by filename. -/
def scan_images (fs : FS) : List String :=
  ((listdir fs).filter (fun f => isImageFile f)).insertionSort strLe

/-- `load_images`: replace the image sequence with the fresh scan and reset
the cursor to 0. -/
def load_images (fs : FS) (s : Session) : Session :=
  { s with image_files := scan_images fs, current_index := 0 }

/-- The sort key of `load_folders`: `st_birthtime` when the host filesystem
has it, else `st_ctime`. -/
def folderSortKey (d : Folder) : Nat := d.birthtime.getD d.ctime

/-- The ordering `load_folders` sorts by: ascending creation timestamp. -/
def folderLe (a b : Folder) : Prop := folderSortKey a ≤ folderSortKey b

instance : DecidableRel folderLe := fun a b => Nat.decLe _ _

/-- The folder list recomputed by `load_folders`: non-hidden sub-directories
sorted ascending by creation time. -/
def scan_folders (fs : FS) : List String :=
  ((fs.folders.filter (fun d => !(isHidden d.name))).insertionSort folderLe).map (·.name)

/-- `load_folders`: replace the folder sequence with the fresh scan. -/
def load_folders (fs : FS) (s : Session) : Session :=
  { s with folders := scan_folders fs }

/-- `prev_image`: step the cursor back unless the list is empty or the cursor
is already at 0. -/
def prev_image (s : Session) : Session :=
  if s.image_files ≠ [] ∧ 0 < s.current_index then
    { s with current_index := s.current_index - 1 }
  else s

/-- `next_image`: step the cursor forward unless the list is empty or the
cursor is already at the last position. -/
def next_image (s : Session) : Session :=
  if s.image_files ≠ [] ∧ s.current_index < (s.image_files.length : Int) - 1 then
    { s with current_index := s.current_index + 1 }
  else s

/-- `show_current_image`'s notion of the active image: none when the list is
empty, else the entry the cursor subscripts. -/
def current_image (s : Session) : Option String :=
  if s.image_files = [] then none else pyGet s.image_files s.current_index

/-- `go_to_next_or_finish`: display-only (shows the completion notice when the
list is empty, else redraws the entry at the cursor); it changes no session
state. -/
def go_to_next_or_finish (s : Session) : Session := s

/-- The caller's resolution of the Overwrite / Skip / Cancel prompt, supplied
as an argument (the prompt blocks synchronously in the program). -/
inductive Decision where
  | overwrite | skip | cancel
deriving DecidableEq

/-- Which branch of `move_image_to_folder` ran. -/
inductive MoveOutcome where
  | noImages | invalidFolder | indexError | cancelled | skipped | fsError | moved
deriving DecidableEq

/-- Result of `move_image_to_folder`: the branch taken, the session state and
the filesystem afterwards. -/
structure MoveResult where
  outcome : MoveOutcome
  session : Session
  fs : FS
deriving DecidableEq

/-- `move_image_to_folder(folder_index)`.  The guards, the collision prompt,
the move, the undo-stack push, the deletion at the cursor and the cursor
clamp follow the source line by line; the prompt's resolution is the
`decision` argument. -/
def move_image_to_folder (decision : Decision) (folder_index : Int)
    (fs : FS) (s : Session) : MoveResult :=
  if s.image_files = [] then ⟨.noImages, s, fs⟩
  else if (s.folders.length : Int) ≤ folder_index then ⟨.invalidFolder, s, fs⟩
  else
    match pyGet s.image_files s.current_index with
    | none => ⟨.indexError, s, fs⟩
    | some src_file =>
      match pyGet s.folders folder_index with
      | none => ⟨.indexError, s, fs⟩
      | some target_folder =>
        let src_path := FPath.root src_file
        let dst_path := FPath.sub target_folder src_file
        let doMove : MoveResult :=
          match fsMove fs src_path dst_path with
          | none => ⟨.fsError, s, fs⟩
          | some fs' =>
            let files' := pyDelete s.image_files s.current_index
            let idx' := if (files'.length : Int) ≤ s.current_index
              then (files'.length : Int) - 1 else s.current_index
            ⟨.moved,
              go_to_next_or_finish
                { image_files := files', current_index := idx',
                  folders := s.folders,
                  undo_stack := (dst_path, src_path) :: s.undo_stack },
              fs'⟩
        if fsExists fs dst_path then
          match decision with
          | .cancel => ⟨.cancelled, s, fs⟩
          | .skip => ⟨.skipped, go_to_next_or_finish s, fs⟩
          | .overwrite => doMove
        else doMove

/-- Which branch of `undo_move` ran. -/
inductive UndoOutcome where
  | nothingToUndo | fsError | undone
deriving DecidableEq

/-- Result of `undo_move`. -/
structure UndoResult where
  outcome : UndoOutcome
  session : Session
  fs : FS
deriving DecidableEq

/-- `undo_move`: pop the stack, move the file back, rescan the image list,
and relocate the cursor onto the restored filename (falling back to
`min(old_index, len - 1)` when it is not found). -/
def undo_move (fs : FS) (s : Session) : UndoResult :=
  match s.undo_stack with
  | [] => ⟨.nothingToUndo, s, fs⟩
  | (current_path, original_path) :: rest =>
    let s0 : Session := { s with undo_stack := rest }
    match fsMove fs current_path original_path with
    | none => ⟨.fsError, s0, fs⟩
    | some fs' =>
      let old_index := s0.current_index
      let s1 := load_images fs' s0
      let restored_file := basename original_path
      let idx : Int :=
        if restored_file ∈ s1.image_files then (s1.image_files.indexOf restored_file : Int)
        else min old_index ((s1.image_files.length : Int) - 1)
      ⟨.undone, { s1 with current_index := idx }, fs'⟩

/-! ### Order properties of the two sort relations -/

theorem charListLe_refl : ∀ a, charListLe a a = true
  | [] => rfl
  | a :: as => by
      simp only [charListLe, lt_irrefl, if_false]
      exact charListLe_refl as

theorem charListLe_total : ∀ a b, charListLe a b = true ∨ charListLe b a = true
  | [], _ => Or.inl rfl
  | _ :: _, [] => Or.inr rfl
  | a :: as, b :: bs => by
      simp only [charListLe]
      rcases Nat.lt_trichotomy a.toNat b.toNat with h | h | h
      · left; simp [h]
      · have hab : ¬ a.toNat < b.toNat := by omega
        have hba : ¬ b.toNat < a.toNat := by omega
        simp only [hab, hba, if_false]
        exact charListLe_total as bs
      · right; simp [h]

theorem charListLe_trans : ∀ a b c, charListLe a b = true → charListLe b c = true →
    charListLe a c = true
  | [], _, _, _, _ => rfl
  | _ :: _, [], _, h, _ => by simp [charListLe] at h
  | _ :: _, _ :: _, [], _, h => by simp [charListLe] at h
  | a :: as, b :: bs, c :: cs, h1, h2 => by
      simp only [charListLe] at h1 h2 ⊢
      rcases Nat.lt_trichotomy a.toNat c.toNat with h | h | h
      · simp [h]
      · have hac : ¬ a.toNat < c.toNat := by omega
        have hca : ¬ c.toNat < a.toNat := by omega
        simp only [hac, hca, if_false]
        split_ifs at h1 h2 with hab hba hbc hcb <;> try omega
        · exact charListLe_trans as bs cs h1 h2
      · exfalso
        split_ifs at h1 h2 with hab hba hbc hcb <;> omega

theorem charEqOfNatEq {a b : Char} (h : a.toNat = b.toNat) : a = b :=
  Char.eq_of_val_eq (UInt32.ext h)

theorem charListLe_antisymm : ∀ a b, charListLe a b = true → charListLe b a = true → a = b
  | [], [], _, _ => rfl
  | [], _ :: _, _, h => by simp [charListLe] at h
  | _ :: _, [], h, _ => by simp [charListLe] at h
  | a :: as, b :: bs, h1, h2 => by
      simp only [charListLe] at h1 h2
      split_ifs at h1 h2 with hab hba <;> first
        | omega
        | exact congrArg₂ (· :: ·) (charEqOfNatEq (by omega))
            (charListLe_antisymm as bs h1 h2)

instance : IsTotal String strLe := ⟨fun a b => charListLe_total a.data b.data⟩

instance : IsTrans String strLe := ⟨fun a b c => charListLe_trans a.data b.data c.data⟩

instance : IsRefl String strLe := ⟨fun a => charListLe_refl a.data⟩

theorem stringExt : ∀ {a b : String}, a.data = b.data → a = b
  | ⟨_⟩, ⟨_⟩, rfl => rfl

instance : IsAntisymm String strLe :=
  ⟨fun a b h1 h2 => stringExt (charListLe_antisymm a.data b.data h1 h2)⟩

instance : IsTotal Folder folderLe := ⟨fun a b => Nat.le_total _ _⟩

instance : IsTrans Folder folderLe := ⟨fun _ _ _ => Nat.le_trans⟩

/-! ### Helper lemmas -/

theorem pyGet_natCast {α : Type} (l : List α) (c : Nat) : pyGet l (c : Int) = l.get? c := by
  unfold pyGet
  rw [if_pos (Int.natCast_nonneg c), Int.toNat_natCast]

theorem pyDelete_natCast {α : Type} (l : List α) (c : Nat) :
    pyDelete l (c : Int) = l.eraseIdx c := by
  unfold pyDelete
  rw [if_pos (Int.natCast_nonneg c), Int.toNat_natCast]

/-- The cursor invariant: within `[0, length-1]`. -/
def cursorInRange (s : Session) : Prop :=
  0 ≤ s.current_index ∧ s.current_index ≤ (s.image_files.length : Int) - 1

instance (s : Session) : Decidable (cursorInRange s) :=
  inferInstanceAs (Decidable (_ ∧ _))

/-! ### C9 -/

/-- C9: for every image sequence and cursor with `0 ≤ cursor ≤ length-1`,
`next_image` (advance) and `prev_image` (retreat) leave the cursor within
`[0, length-1]`; they are no-ops (not errors) at either boundary and when the
sequence is empty. -/
theorem c9_navigation_clamped (s : Session) :
    (cursorInRange s → cursorInRange (prev_image s) ∧ cursorInRange (next_image s)) ∧
    (s.current_index = 0 → prev_image s = s) ∧
    (s.current_index = (s.image_files.length : Int) - 1 → next_image s = s) ∧
    (s.image_files = [] → prev_image s = s ∧ next_image s = s) := by
  unfold cursorInRange prev_image next_image
  refine ⟨fun h => ⟨?_, ?_⟩, fun h => ?_, fun h => ?_, fun h => ?_⟩ <;>
    split_ifs with hc <;> simp_all <;> omega

/-- Witness for C9 at a concrete session. -/
theorem c9_navigation_clamped_witness :
    cursorInRange (⟨["a.png", "b.png"], 1, [], []⟩ : Session) ∧
    cursorInRange (prev_image ⟨["a.png", "b.png"], 1, [], []⟩) ∧
    cursorInRange (next_image ⟨["a.png", "b.png"], 1, [], []⟩) := by
  have h := (c9_navigation_clamped ⟨["a.png", "b.png"], 1, [], []⟩).1 (by decide)
  exact ⟨by decide, h.1, h.2⟩

/-! ### C4 -/

/-- C4 counterexample: with one folder, `folderIndex = -1` is out of bounds of
the folder sequence, yet `move_image_to_folder` does not fail with
`InvalidFolderError`: it performs the move and changes the session state. -/
theorem c4_counterexample_negative_index :
    (move_image_to_folder Decision.overwrite (-1)
        ⟨["a.png"], [⟨"cats", some 1, 1, []⟩]⟩
        ⟨["a.png"], 0, ["cats"], []⟩).outcome = MoveOutcome.moved ∧
    (move_image_to_folder Decision.overwrite (-1)
        ⟨["a.png"], [⟨"cats", some 1, 1, []⟩]⟩
        ⟨["a.png"], 0, ["cats"], []⟩).session.image_files = [] := by
  decide

/-- C4 (amended): `move_image_to_folder` fails with `NoImagesError` whenever
the image sequence is empty, and fails with `InvalidFolderError` whenever
`folderIndex ≥ length of the folder sequence`; in both failure cases no file
is moved and no session state changes.  (Negative indices are not rejected;
they select from the end of the folder sequence, see C10.) -/
theorem c4_guard_failures (d : Decision) (i : Int) (fs : FS) (s : Session) :
    (s.image_files = [] → move_image_to_folder d i fs s = ⟨.noImages, s, fs⟩) ∧
    (s.image_files ≠ [] → (s.folders.length : Int) ≤ i →
      move_image_to_folder d i fs s = ⟨.invalidFolder, s, fs⟩) := by
  constructor
  · intro h
    unfold move_image_to_folder
    rw [if_pos h]
  · intro h1 h2
    unfold move_image_to_folder
    rw [if_neg h1, if_pos h2]

/-- Witness for C4's amended theorem: both guards at concrete inputs. -/
theorem c4_guard_failures_witness :
    move_image_to_folder Decision.overwrite 0 ⟨[], []⟩ ⟨[], 0, ["cats"], []⟩ =
      ⟨.noImages, ⟨[], 0, ["cats"], []⟩, ⟨[], []⟩⟩ ∧
    move_image_to_folder Decision.overwrite 5 ⟨["a.png"], []⟩ ⟨["a.png"], 0, ["cats"], []⟩ =
      ⟨.invalidFolder, ⟨["a.png"], 0, ["cats"], []⟩, ⟨["a.png"], []⟩⟩ := by
  constructor
  · exact (c4_guard_failures Decision.overwrite 0 ⟨[], []⟩ ⟨[], 0, ["cats"], []⟩).1 rfl
  · exact (c4_guard_failures Decision.overwrite 5 ⟨["a.png"], []⟩
      ⟨["a.png"], 0, ["cats"], []⟩).2 (by decide) (by decide)

/-! ### C2 -/

/-- C2: at a destination collision resolved as Skip, the code leaves the whole
session state and the filesystem unchanged — in particular the image sequence
does **not** shrink and the cursor stays on the same (skipped) image, because
`go_to_next_or_finish` only redraws the display and removes nothing. -/
theorem c2_skip_changes_nothing :
    move_image_to_folder Decision.skip 0
        ⟨["a.png", "b.png"], [⟨"cats", some 1, 1, ["a.png"]⟩]⟩
        ⟨["a.png", "b.png"], 0, ["cats"], []⟩ =
      ⟨MoveOutcome.skipped, ⟨["a.png", "b.png"], 0, ["cats"], []⟩,
        ⟨["a.png", "b.png"], [⟨"cats", some 1, 1, ["a.png"]⟩]⟩⟩ := by
  decide

/-! ### C3 -/

/-- C3: when the underlying filesystem move fails, `move_image_to_folder`
fails with `FileSystemError` and leaves the entire session state (image
sequence, cursor, folder sequence, undo stack) and the filesystem unchanged. -/
theorem c3_fs_failure_state_unchanged (d : Decision) (i : Int) (fs : FS) (s : Session)
    (src_file target_folder : String)
    (h1 : s.image_files ≠ [])
    (h2 : i < (s.folders.length : Int))
    (h3 : pyGet s.image_files s.current_index = some src_file)
    (h4 : pyGet s.folders i = some target_folder)
    (h5 : fsMove fs (.root src_file) (.sub target_folder src_file) = none)
    (h6 : fsExists fs (.sub target_folder src_file) = false ∨ d = .overwrite) :
    move_image_to_folder d i fs s = ⟨.fsError, s, fs⟩ := by
  unfold move_image_to_folder
  rw [if_neg h1, if_neg (by omega : ¬ (s.folders.length : Int) ≤ i), h3, h4]
  simp only [h5]
  rcases h6 with h6 | h6
  · rw [if_neg (by simp [h6])]
  · subst h6
    split <;> rfl

/-- Witness for C3: a stale session whose current image is no longer on disk,
so the modelled `shutil.move` fails. -/
theorem c3_fs_failure_state_unchanged_witness :
    move_image_to_folder Decision.overwrite 0
        ⟨[], [⟨"cats", some 1, 1, []⟩]⟩ ⟨["a.png"], 0, ["cats"], []⟩ =
      ⟨.fsError, ⟨["a.png"], 0, ["cats"], []⟩, ⟨[], [⟨"cats", some 1, 1, []⟩]⟩⟩ :=
  c3_fs_failure_state_unchanged Decision.overwrite 0
    ⟨[], [⟨"cats", some 1, 1, []⟩]⟩ ⟨["a.png"], 0, ["cats"], []⟩ "a.png" "cats"
    (by decide) (by decide) (by decide) (by decide) (by decide) (Or.inr rfl)

/-! ### C6 -/

/-- C6: `undo_move` fails with `NothingToUndoError` on an empty undo stack and
changes nothing; when the stack is non-empty but the restorative filesystem
move fails, it fails with `FileSystemError`, the popped record is not
restored to the stack, and the image list, cursor, folder list and filesystem
are untouched. -/
theorem c6_undo_failures (fs : FS) (s : Session) (cp op : FPath) (rest : List (FPath × FPath)) :
    (s.undo_stack = [] → undo_move fs s = ⟨.nothingToUndo, s, fs⟩) ∧
    (s.undo_stack = (cp, op) :: rest → fsMove fs cp op = none →
      undo_move fs s = ⟨.fsError, { s with undo_stack := rest }, fs⟩) := by
  constructor
  · intro h
    unfold undo_move
    rw [h]
  · intro h hmv
    unfold undo_move
    rw [h]
    simp only [hmv]

/-- Witness for C6: both failure branches at concrete inputs. -/
theorem c6_undo_failures_witness :
    undo_move ⟨["a.png"], []⟩ ⟨["a.png"], 0, [], []⟩ =
      ⟨.nothingToUndo, ⟨["a.png"], 0, [], []⟩, ⟨["a.png"], []⟩⟩ ∧
    undo_move ⟨[], []⟩ ⟨[], 0, [], [(FPath.sub "cats" "a.png", FPath.root "a.png")]⟩ =
      ⟨.fsError, ⟨[], 0, [], []⟩, ⟨[], []⟩⟩ := by
  constructor
  · exact (c6_undo_failures ⟨["a.png"], []⟩ ⟨["a.png"], 0, [], []⟩
      (FPath.root "x") (FPath.root "x") []).1 rfl
  · exact (c6_undo_failures ⟨[], []⟩ ⟨[], 0, [], [(FPath.sub "cats" "a.png", FPath.root "a.png")]⟩
      (FPath.sub "cats" "a.png") (FPath.root "a.png") []).2 rfl (by decide)

/-! ### The successful-move path -/

/-- Computation of `move_image_to_folder` on its success path. -/
theorem move_success_eq (d : Decision) (i : Int) (fs fs' : FS) (s : Session)
    (src_file target_folder : String)
    (h1 : s.image_files ≠ [])
    (h2 : i < (s.folders.length : Int))
    (h3 : pyGet s.image_files s.current_index = some src_file)
    (h4 : pyGet s.folders i = some target_folder)
    (h5 : fsMove fs (.root src_file) (.sub target_folder src_file) = some fs')
    (h6 : fsExists fs (.sub target_folder src_file) = false ∨ d = .overwrite) :
    move_image_to_folder d i fs s =
      ⟨.moved,
        { image_files := pyDelete s.image_files s.current_index,
          current_index :=
            if ((pyDelete s.image_files s.current_index).length : Int) ≤ s.current_index
            then ((pyDelete s.image_files s.current_index).length : Int) - 1
            else s.current_index,
          folders := s.folders,
          undo_stack := (FPath.sub target_folder src_file, FPath.root src_file) :: s.undo_stack },
        fs'⟩ := by
  unfold move_image_to_folder
  rw [if_neg h1, if_neg (by omega : ¬ (s.folders.length : Int) ≤ i), h3, h4]
  simp only [h5, go_to_next_or_finish]
  rcases h6 with h6 | h6
  · rw [if_neg (by simp [h6])]
  · subst h6
    split <;> rfl

/-! ### C5 -/

/-- C5: after every successful move, `(destinationPath, sourcePath)` is pushed
onto the undo stack, the entry at the cursor is removed from the image
sequence, and the cursor is decremented by one exactly when it then equals
the new sequence length; the cursor stays in range while images remain and
becomes the no-selection value `-1` (with `current_image = none`) when the
sequence empties. -/
theorem c5_success_updates (d : Decision) (i : Int) (fs fs' : FS) (s : Session)
    (src_file target_folder : String) (c : Nat)
    (hc : s.current_index = (c : Int)) (hlen : c < s.image_files.length)
    (h2 : i < (s.folders.length : Int))
    (h3 : pyGet s.image_files s.current_index = some src_file)
    (h4 : pyGet s.folders i = some target_folder)
    (h5 : fsMove fs (.root src_file) (.sub target_folder src_file) = some fs')
    (h6 : fsExists fs (.sub target_folder src_file) = false ∨ d = .overwrite) :
    (move_image_to_folder d i fs s).outcome = .moved ∧
    (move_image_to_folder d i fs s).session.undo_stack =
      (FPath.sub target_folder src_file, FPath.root src_file) :: s.undo_stack ∧
    (move_image_to_folder d i fs s).session.image_files = s.image_files.eraseIdx c ∧
    (move_image_to_folder d i fs s).session.current_index =
      (if (c : Int) = ((move_image_to_folder d i fs s).session.image_files.length : Int)
       then (c : Int) - 1 else (c : Int)) ∧
    ((move_image_to_folder d i fs s).session.image_files ≠ [] →
      0 ≤ (move_image_to_folder d i fs s).session.current_index ∧
      (move_image_to_folder d i fs s).session.current_index <
        ((move_image_to_folder d i fs s).session.image_files.length : Int)) ∧
    ((move_image_to_folder d i fs s).session.image_files = [] →
      (move_image_to_folder d i fs s).session.current_index = -1 ∧
      current_image (move_image_to_folder d i fs s).session = none) := by
  have h1 : s.image_files ≠ [] := by
    intro he
    rw [he] at hlen
    simp at hlen
  rw [move_success_eq d i fs fs' s src_file target_folder h1 h2 h3 h4 h5 h6]
  simp only [hc, pyDelete_natCast]
  have hlen' : (s.image_files.eraseIdx c).length = s.image_files.length - 1 := by
    rw [List.length_eraseIdx]
    simp [hlen]
  have hempty : s.image_files.eraseIdx c = [] ↔ (s.image_files.eraseIdx c).length = 0 :=
    List.length_eq_zero.symm
  refine ⟨by trivial, by trivial, by trivial, ?_, ?_, ?_⟩
  · have hiff : (((s.image_files.eraseIdx c).length : Int) ≤ (c : Int)) ↔
        ((c : Int) = ((s.image_files.eraseIdx c).length : Int)) := by
      rw [hlen']
      omega
    simp only [hiff]
    split_ifs with h <;> omega
  · intro hne
    have : 0 < (s.image_files.eraseIdx c).length := List.length_pos.mpr hne
    constructor <;> split_ifs <;> omega
  · intro he
    have h0 : (s.image_files.eraseIdx c).length = 0 := hempty.mp he
    refine ⟨?_, ?_⟩
    · split_ifs <;> omega
    · simp [current_image, he]

/-- Witness for C5: moving the last image of a two-image session. -/
theorem c5_success_updates_witness :
    (move_image_to_folder Decision.overwrite 0 ⟨["a.png", "b.png"], [⟨"cats", some 1, 1, []⟩]⟩
        ⟨["a.png", "b.png"], 1, ["cats"], []⟩).outcome = MoveOutcome.moved ∧
    (move_image_to_folder Decision.overwrite 0 ⟨["a.png", "b.png"], [⟨"cats", some 1, 1, []⟩]⟩
        ⟨["a.png", "b.png"], 1, ["cats"], []⟩).session.undo_stack =
      [(FPath.sub "cats" "b.png", FPath.root "b.png")] ∧
    (move_image_to_folder Decision.overwrite 0 ⟨["a.png", "b.png"], [⟨"cats", some 1, 1, []⟩]⟩
        ⟨["a.png", "b.png"], 1, ["cats"], []⟩).session.image_files =
      ["a.png", "b.png"].eraseIdx 1 := by
  have h := c5_success_updates Decision.overwrite 0
    ⟨["a.png", "b.png"], [⟨"cats", some 1, 1, []⟩]⟩
    ⟨["a.png"], [⟨"cats", some 1, 1, ["b.png"]⟩]⟩
    ⟨["a.png", "b.png"], 1, ["cats"], []⟩ "b.png" "cats" 1
    rfl (by decide) (by decide) (by decide) (by decide) (by decide) (Or.inr rfl)
  exact ⟨h.1, h.2.1, h.2.2.1⟩

/-! ### Filesystem helper lemmas -/

theorem addFile_contains (l : List String) (f : String) : (addFile l f).contains f = true := by
  unfold addFile
  split_ifs with h
  · exact h
  · simp

/-- Both folder-content updates of `fsAdd` / `fsRemove` preserve folder names. -/
theorem map_name_map (g : Folder → Folder) (hg : ∀ d, (g d).name = d.name) :
    ∀ l : List Folder, (l.map g).map (·.name) = l.map (·.name)
  | [] => rfl
  | d :: t => by simp [hg d, map_name_map g hg t]

theorem fsAdd_folders_names (fs : FS) (p : FPath) :
    (fsAdd fs p).folders.map (·.name) = fs.folders.map (·.name) := by
  cases p with
  | root f => rfl
  | sub d f => exact map_name_map _ (fun dir => by split <;> rfl) _

theorem fsRemove_folders_names (fs : FS) (p : FPath) :
    (fsRemove fs p).folders.map (·.name) = fs.folders.map (·.name) := by
  cases p with
  | root f => rfl
  | sub d f => exact map_name_map _ (fun dir => by split <;> rfl) _

theorem any_map_name (p : String → Bool) :
    ∀ l : List Folder, (l.map (·.name)).any p = l.any (fun dir => p dir.name)
  | [] => rfl
  | d :: t => by simp [any_map_name p t]

theorem parentExists_eq_names (fs : FS) (d f : String) :
    parentExists fs (FPath.sub d f) = (fs.folders.map (·.name)).any (fun n => n == d) := by
  show fs.folders.any (fun dir => dir.name == d) = _
  rw [any_map_name]

theorem parentExists_fsRemove (fs : FS) (p q : FPath) :
    parentExists (fsRemove fs p) q = parentExists fs q := by
  cases q with
  | root f => rfl
  | sub d f => rw [parentExists_eq_names, parentExists_eq_names, fsRemove_folders_names]

theorem fsExists_fsAdd_self (fs : FS) (p : FPath) (h : parentExists fs p = true) :
    fsExists (fsAdd fs p) p = true := by
  cases p with
  | root f => exact addFile_contains fs.rootFiles f
  | sub d f =>
    unfold parentExists at h
    obtain ⟨dir, hmem, hname⟩ := List.any_eq_true.mp h
    unfold fsAdd fsExists
    refine List.any_eq_true.mpr ⟨_, List.mem_map_of_mem _ hmem, ?_⟩
    rw [if_pos hname]
    simp only [Bool.and_eq_true]
    exact ⟨hname, addFile_contains dir.files f⟩

/-- A successful modelled `shutil.move` leaves a file at the destination. -/
theorem fsExists_dst_after_move (fs fs' : FS) (src dst : FPath)
    (h : fsMove fs src dst = some fs') : fsExists fs' dst = true := by
  unfold fsMove at h
  split_ifs at h with hc
  simp only [Bool.and_eq_true] at hc
  obtain ⟨hsrc, hpar⟩ := hc
  obtain rfl := Option.some.inj h
  exact fsExists_fsAdd_self _ _ ((parentExists_fsRemove fs src dst).trans hpar)

/-! ### C10 -/

/-- C10: `move_image_to_folder` does not reject negative folder indices.  With
`L` folders and `-L ≤ folderIndex < 0`, the sole bounds guard
(`folder_index >= len(folders)`) passes, the Python subscript resolves to the
folder at position `L + folderIndex`, and the current image is moved into that
folder (so index `-1` selects the last — most recently created — folder). -/
theorem c10_negative_index_moves (d : Decision) (i : Int) (fs fs' : FS) (s : Session)
    (src_file target_folder : String)
    (h1 : s.image_files ≠ [])
    (h3 : pyGet s.image_files s.current_index = some src_file)
    (hneg : -(s.folders.length : Int) ≤ i) (hi0 : i < 0)
    (htgt : s.folders.get? (i + s.folders.length).toNat = some target_folder)
    (h5 : fsMove fs (.root src_file) (.sub target_folder src_file) = some fs')
    (h6 : fsExists fs (.sub target_folder src_file) = false ∨ d = .overwrite) :
    pyGet s.folders i = some target_folder ∧
    (move_image_to_folder d i fs s).outcome = .moved ∧
    (move_image_to_folder d i fs s).fs = fs' ∧
    fsExists fs' (FPath.sub target_folder src_file) = true := by
  have h4 : pyGet s.folders i = some target_folder := by
    unfold pyGet
    rw [if_neg (by omega), if_pos (by omega)]
    exact htgt
  have h2 : i < (s.folders.length : Int) := by omega
  refine ⟨h4, ?_, ?_, fsExists_dst_after_move fs fs' _ _ h5⟩ <;>
    rw [move_success_eq d i fs fs' s src_file target_folder h1 h2 h3 h4 h5 h6]

/-- Witness for C10: folder index `-1` with a single folder. -/
theorem c10_negative_index_moves_witness :
    pyGet ["cats"] (-1) = some "cats" ∧
    (move_image_to_folder Decision.overwrite (-1) ⟨["a.png"], [⟨"cats", some 1, 1, []⟩]⟩
        ⟨["a.png"], 0, ["cats"], []⟩).outcome = .moved ∧
    fsExists ⟨[], [⟨"cats", some 1, 1, ["a.png"]⟩]⟩ (FPath.sub "cats" "a.png") = true := by
  have h := c10_negative_index_moves Decision.overwrite (-1)
    ⟨["a.png"], [⟨"cats", some 1, 1, []⟩]⟩ ⟨[], [⟨"cats", some 1, 1, ["a.png"]⟩]⟩
    ⟨["a.png"], 0, ["cats"], []⟩ "a.png" "cats"
    (by decide) (by decide) (by decide) (by decide) (by decide) (by decide) (Or.inr rfl)
  exact ⟨h.1, h.2.1, h.2.2.2⟩

/-! ### C7 -/

/-- C7 counterexample: `load_images` filters `os.listdir`, which lists
sub-directories too, so a *directory* named `a.png` enters the image
sequence even though it is not a file of the working directory — the output
is not "exactly the files" with an allow-listed extension. -/
theorem c7_counterexample_directory_listed :
    (load_images ⟨["b.jpg"], [⟨"a.png", some 0, 0, []⟩]⟩ ⟨[], 0, [], []⟩).image_files =
      ["a.png", "b.jpg"] ∧
    (⟨["b.jpg"], [⟨"a.png", some 0, 0, []⟩]⟩ : FS).rootFiles = ["b.jpg"] := by
  decide

/-- C7 (amended): `load_images` replaces the image sequence with exactly the
direct entries of the working directory — files or sub-directories — whose
lowercased name ends in `.png`, `.jpg`, `.jpeg`, `.gif` or `.bmp`, sorted
ascending (lexicographically by code point), and resets the cursor to 0. -/
theorem c7_scan_filter_sort_reset (fs : FS) (s : Session) :
    ((load_images fs s).image_files).Perm
      ((listdir fs).filter (fun f => isImageFile f)) ∧
    List.Sorted strLe (load_images fs s).image_files ∧
    (load_images fs s).current_index = 0 := by
  refine ⟨List.perm_insertionSort strLe _, List.sorted_insertionSort strLe _, rfl⟩

/-! ### C8 -/

/-- C8: `load_folders` replaces the folder sequence with exactly the
non-hidden direct sub-directories, ordered ascending by creation timestamp,
where the timestamp is `st_birthtime` when available and the
last-metadata-change time `st_ctime` otherwise. -/
theorem c8_folders_sorted_by_creation (fs : FS) (s : Session) :
    ∃ l : List Folder,
      (load_folders fs s).folders = l.map (·.name) ∧
      l.Perm (fs.folders.filter (fun d => !(isHidden d.name))) ∧
      List.Sorted (· ≤ ·) (l.map folderSortKey) ∧
      ∀ d ∈ l, folderSortKey d = d.birthtime.getD d.ctime := by
  refine ⟨(List.filter (fun d => !(isHidden d.name)) fs.folders).insertionSort folderLe,
    ?_, List.perm_insertionSort folderLe _, ?_, fun d _ => rfl⟩
  · rfl
  · exact List.pairwise_map.mpr (List.sorted_insertionSort folderLe _)

/-! ### Helper lemmas for the move/undo round trip -/

theorem addFile_not_mem (l : List String) (f : String) (h : f ∉ l) :
    addFile l f = f :: l := by
  unfold addFile
  rw [if_neg]
  simpa using h

/-- Rescanning is invariant under permutation of the directory listing. -/
theorem scan_images_congr (fs₁ fs₂ : FS) (h : (listdir fs₁).Perm (listdir fs₂)) :
    scan_images fs₁ = scan_images fs₂ := by
  unfold scan_images
  refine List.eq_of_perm_of_sorted ?_ (List.sorted_insertionSort strLe _)
    (List.sorted_insertionSort strLe _)
  exact (List.perm_insertionSort strLe _).trans
    ((h.filter _).trans (List.perm_insertionSort strLe _).symm)

theorem scan_images_nodup (fs : FS) (h : (listdir fs).Nodup) : (scan_images fs).Nodup :=
  ((List.perm_insertionSort strLe _).nodup_iff).mpr (h.filter _)

theorem indexOf_get_of_nodup {α : Type} [DecidableEq α] :
    ∀ (l : List α) (i : Nat) (h : i < l.length), l.Nodup →
      l.indexOf (l.get ⟨i, h⟩) = i
  | a :: t, 0, _, _ => List.indexOf_cons_self a t
  | a :: t, n + 1, h, hnd => by
      have hn : n < t.length := Nat.lt_of_succ_lt_succ h
      have hne : a ≠ t.get ⟨n, hn⟩ := by
        intro he
        exact (List.nodup_cons.mp hnd).1 (he ▸ List.get_mem t n hn)
      show List.indexOf (t.get ⟨n, hn⟩) (a :: t) = n + 1
      rw [List.indexOf_cons_ne t hne,
        indexOf_get_of_nodup t n hn (List.nodup_cons.mp hnd).2]

/-- A name listed by `scan_folders` is the name of an existing sub-folder. -/
theorem parentExists_of_mem_scan_folders (fs : FS) (tgt f : String)
    (h : tgt ∈ scan_folders fs) : parentExists fs (FPath.sub tgt f) = true := by
  unfold scan_folders at h
  obtain ⟨dir, hdir, rfl⟩ := List.mem_map.mp h
  have hmem : dir ∈ fs.folders :=
    List.mem_of_mem_filter ((List.perm_insertionSort folderLe _).mem_iff.mp hdir)
  show fs.folders.any (fun x => x.name == dir.name) = true
  exact List.any_eq_true.mpr ⟨dir, hmem, by simp⟩

/-- Computation of `undo_move` on its success path. -/
theorem undo_success_eq (fs fs' : FS) (s : Session) (cp op : FPath)
    (rest : List (FPath × FPath))
    (hstack : s.undo_stack = (cp, op) :: rest)
    (hmv : fsMove fs cp op = some fs') :
    undo_move fs s =
      ⟨.undone,
        { image_files := scan_images fs',
          current_index :=
            if basename op ∈ scan_images fs'
            then ((scan_images fs').indexOf (basename op) : Int)
            else min s.current_index (((scan_images fs').length : Int) - 1),
          folders := s.folders, undo_stack := rest },
        fs'⟩ := by
  unfold undo_move
  rw [hstack]
  simp only [hmv, load_images]

/-! ### C1 -/

/-- C1: for every session consistent with the filesystem (sequences as
rescanned, cursor on an existing root file) and in-range folder index,
`move_image_to_folder` (with Overwrite as the prompt resolution, consulted
only on collision) followed immediately by `undo_move` restores the file at
its original source path, the rescanned image sequence equals the original
one — so the filename reoccupies its original position `c` — and the cursor
points at the restored image. -/
theorem c1_move_undo_round_trip (fs : FS) (s : Session) (i : Int) (c : Nat) (cur : String)
    (hnd : (listdir fs).Nodup)
    (himg : s.image_files = scan_images fs)
    (hfld : s.folders = scan_folders fs)
    (hcidx : s.current_index = (c : Int))
    (hcur : s.image_files.get? c = some cur)
    (hroot : cur ∈ fs.rootFiles)
    (hi0 : 0 ≤ i) (hiL : i < (s.folders.length : Int)) :
    (move_image_to_folder Decision.overwrite i fs s).outcome = MoveOutcome.moved ∧
    (undo_move (move_image_to_folder Decision.overwrite i fs s).fs
        (move_image_to_folder Decision.overwrite i fs s).session).outcome =
      UndoOutcome.undone ∧
    fsExists (undo_move (move_image_to_folder Decision.overwrite i fs s).fs
        (move_image_to_folder Decision.overwrite i fs s).session).fs
      (FPath.root cur) = true ∧
    (undo_move (move_image_to_folder Decision.overwrite i fs s).fs
        (move_image_to_folder Decision.overwrite i fs s).session).session.image_files =
      s.image_files ∧
    scan_images (undo_move (move_image_to_folder Decision.overwrite i fs s).fs
        (move_image_to_folder Decision.overwrite i fs s).session).fs = s.image_files ∧
    (undo_move (move_image_to_folder Decision.overwrite i fs s).fs
        (move_image_to_folder Decision.overwrite i fs s).session).session.current_index =
      (c : Int) ∧
    (undo_move (move_image_to_folder Decision.overwrite i fs s).fs
        (move_image_to_folder Decision.overwrite i fs s).session).session.image_files.get? c =
      some cur ∧
    (undo_move (move_image_to_folder Decision.overwrite i fs s).fs
        (move_image_to_folder Decision.overwrite i fs s).session).session.undo_stack =
      s.undo_stack := by
  -- the current entry and the session's non-emptiness
  have h1 : s.image_files ≠ [] := by
    intro he
    rw [he] at hcur
    simp at hcur
  have h3 : pyGet s.image_files s.current_index = some cur := by
    rw [hcidx, pyGet_natCast]
    exact hcur
  -- the target folder exists on disk
  obtain ⟨tgt, htgt⟩ : ∃ t, s.folders.get? i.toNat = some t :=
    ⟨_, List.get?_eq_get (by omega)⟩
  have h4 : pyGet s.folders i = some tgt := by
    unfold pyGet
    rw [if_pos hi0]
    exact htgt
  have htgtmem : tgt ∈ scan_folders fs := by
    rw [← hfld]
    exact List.get?_mem htgt
  have hpar : parentExists fs (FPath.sub tgt cur) = true :=
    parentExists_of_mem_scan_folders fs tgt cur htgtmem
  have hsrcex : fsExists fs (FPath.root cur) = true := by
    show fs.rootFiles.contains cur = true
    simpa using hroot
  -- the forward move succeeds
  have h5 : fsMove fs (FPath.root cur) (FPath.sub tgt cur) =
      some (fsAdd (fsRemove fs (FPath.root cur)) (FPath.sub tgt cur)) := by
    unfold fsMove
    rw [if_pos (by rw [hsrcex, hpar]; rfl)]
  have hmv := move_success_eq Decision.overwrite i fs
    (fsAdd (fsRemove fs (FPath.root cur)) (FPath.sub tgt cur)) s cur tgt
    h1 hiL h3 h4 h5 (Or.inr rfl)
  rw [hmv]
  dsimp only
  -- the restorative move of the undo succeeds
  have hdstex : fsExists (fsAdd (fsRemove fs (FPath.root cur)) (FPath.sub tgt cur))
      (FPath.sub tgt cur) = true :=
    fsExists_dst_after_move fs _ _ _ h5
  have h5' : fsMove (fsAdd (fsRemove fs (FPath.root cur)) (FPath.sub tgt cur))
      (FPath.sub tgt cur) (FPath.root cur) =
      some (fsAdd (fsRemove (fsAdd (fsRemove fs (FPath.root cur)) (FPath.sub tgt cur))
        (FPath.sub tgt cur)) (FPath.root cur)) := by
    unfold fsMove
    rw [if_pos (by rw [hdstex]; rfl)]
  rw [undo_success_eq _ _ _ (FPath.sub tgt cur) (FPath.root cur) s.undo_stack rfl h5']
  dsimp only
  -- the directory listing after the round trip is a permutation of the original
  have hndroot : fs.rootFiles.Nodup := (List.nodup_append.mp hnd).1
  have hadd : addFile (fs.rootFiles.erase cur) cur = cur :: fs.rootFiles.erase cur :=
    addFile_not_mem _ _ (hndroot.not_mem_erase)
  have hnames : (fsAdd (fsRemove fs (FPath.root cur)) (FPath.sub tgt cur)).folders.map (·.name) =
      fs.folders.map (·.name) := fsAdd_folders_names _ _
  have hperm : (listdir (fsAdd (fsRemove (fsAdd (fsRemove fs (FPath.root cur))
      (FPath.sub tgt cur)) (FPath.sub tgt cur)) (FPath.root cur))).Perm (listdir fs) := by
    show (addFile (fs.rootFiles.erase cur) cur ++
      ((fsRemove (fsAdd (fsRemove fs (FPath.root cur)) (FPath.sub tgt cur))
        (FPath.sub tgt cur)).folders.map (·.name))).Perm
      (fs.rootFiles ++ fs.folders.map (·.name))
    rw [hadd, (fsRemove_folders_names _ _).trans hnames]
    exact ((List.perm_cons_erase hroot).symm).append_right _
  have hscan : scan_images (fsAdd (fsRemove (fsAdd (fsRemove fs (FPath.root cur))
      (FPath.sub tgt cur)) (FPath.sub tgt cur)) (FPath.root cur)) = s.image_files :=
    (scan_images_congr _ _ hperm).trans himg.symm
  -- relocating the cursor onto the restored filename
  obtain ⟨hclen, hget⟩ := List.get?_eq_some.mp hcur
  have hmem : cur ∈ s.image_files := List.get?_mem hcur
  have hmem' : basename (FPath.root cur) ∈ scan_images (fsAdd (fsRemove (fsAdd
      (fsRemove fs (FPath.root cur)) (FPath.sub tgt cur)) (FPath.sub tgt cur))
      (FPath.root cur)) := by
    rw [hscan]
    exact hmem
  have hnodup : s.image_files.Nodup := himg ▸ scan_images_nodup fs hnd
  have hidx : (scan_images (fsAdd (fsRemove (fsAdd (fsRemove fs (FPath.root cur))
      (FPath.sub tgt cur)) (FPath.sub tgt cur)) (FPath.root cur))).indexOf
      (basename (FPath.root cur)) = c := by
    rw [hscan]
    show s.image_files.indexOf cur = c
    rw [← hget]
    exact indexOf_get_of_nodup s.image_files c hclen hnodup
  refine ⟨rfl, rfl, ?_, hscan, hscan, ?_, ?_, rfl⟩
  · exact addFile_contains (fs.rootFiles.erase cur) cur
  · rw [if_pos hmem', hidx]
  · rw [hscan]
    exact hcur

/-- Witness for C1: moving `a.png` (cursor 0) into `cats` and undoing. -/
theorem c1_move_undo_round_trip_witness :
    (move_image_to_folder Decision.overwrite 0 ⟨["a.png", "b.png"], [⟨"cats", some 1, 1, []⟩]⟩
        ⟨["a.png", "b.png"], 0, ["cats"], []⟩).outcome = MoveOutcome.moved ∧
    (undo_move
        (move_image_to_folder Decision.overwrite 0 ⟨["a.png", "b.png"], [⟨"cats", some 1, 1, []⟩]⟩
          ⟨["a.png", "b.png"], 0, ["cats"], []⟩).fs
        (move_image_to_folder Decision.overwrite 0 ⟨["a.png", "b.png"], [⟨"cats", some 1, 1, []⟩]⟩
          ⟨["a.png", "b.png"], 0, ["cats"], []⟩).session).outcome = UndoOutcome.undone ∧
    (undo_move
        (move_image_to_folder Decision.overwrite 0 ⟨["a.png", "b.png"], [⟨"cats", some 1, 1, []⟩]⟩
          ⟨["a.png", "b.png"], 0, ["cats"], []⟩).fs
        (move_image_to_folder Decision.overwrite 0 ⟨["a.png", "b.png"], [⟨"cats", some 1, 1, []⟩]⟩
          ⟨["a.png", "b.png"], 0, ["cats"], []⟩).session).session.image_files =
      ["a.png", "b.png"] ∧
    (undo_move
        (move_image_to_folder Decision.overwrite 0 ⟨["a.png", "b.png"], [⟨"cats", some 1, 1, []⟩]⟩
          ⟨["a.png", "b.png"], 0, ["cats"], []⟩).fs
        (move_image_to_folder Decision.overwrite 0 ⟨["a.png", "b.png"], [⟨"cats", some 1, 1, []⟩]⟩
          ⟨["a.png", "b.png"], 0, ["cats"], []⟩).session).session.current_index = 0 := by
  have h := c1_move_undo_round_trip ⟨["a.png", "b.png"], [⟨"cats", some 1, 1, []⟩]⟩
    ⟨["a.png", "b.png"], 0, ["cats"], []⟩ 0 0 "a.png"
    (by decide) (by decide) (by decide) (by decide) (by decide) (by decide)
    (by decide) (by decide)
  exact ⟨h.1, h.2.1, h.2.2.2.1, h.2.2.2.2.2.1⟩
